import Mathlib

set_option maxHeartbeats 1000000

/-
Verification of the frame-pipeline core: a shallow embedding of the
bounded frame queue (src/server/frame_queue.py), the capture worker
(src/client/capture_worker.py), the inference worker loop
(src/server/inference_worker.py) and the metrics tracker
(src/utils/metrics.py), with theorems about their stated properties.
-/

/-
Embedding of src/server/frame_queue.py.

The wrapped `queue.Queue(maxsize=m)` admits a non-blocking put exactly
when `m <= 0` or the current size is strictly below `m`: a maxsize of 0
makes the underlying queue unbounded, so `queue.Full` is never raised.
Contents are modelled as a list with the head of the queue at the front
(FIFO).  `frames_added` and `frames_dropped` mirror the two counters.
-/

structure BoundedFrameQueue (α : Type) where
  max_size : Nat
  drop_policy : String
  queue : List α
  frames_added : Nat
  frames_dropped : Nat
deriving DecidableEq

namespace BoundedFrameQueue

/-- Constructor `__init__` (frame_queue.py lines 17-24): empty queue, both
counters zero. -/
def init (α : Type) (max_size : Nat) (drop_policy : String) :
    BoundedFrameQueue α :=
  { max_size := max_size, drop_policy := drop_policy, queue := [],
    frames_added := 0, frames_dropped := 0 }

/-- Method `put` (frame_queue.py lines 26-49).  The non-blocking
`queue.put` succeeds when maxsize is 0 (unbounded) or the size is below
maxsize, incrementing `frames_added`.  On `queue.Full` with policy
"oldest", the head is removed and the new item inserted,
`frames_dropped` is incremented and the call returns True; the bare
`except` path (get raised `queue.Empty`) increments `frames_dropped` and
returns False.  With any other policy the item is discarded,
`frames_dropped` is incremented, and the call returns False. -/
def put (s : BoundedFrameQueue α) (item : α) : BoundedFrameQueue α × Bool :=
  if s.max_size = 0 ∨ s.queue.length < s.max_size then
    ({ s with queue := s.queue ++ [item],
              frames_added := s.frames_added + 1 }, true)
  else if s.drop_policy = "oldest" then
    match s.queue with
    | [] => ({ s with frames_dropped := s.frames_dropped + 1 }, false)
    | _ :: rest =>
        ({ s with queue := rest ++ [item],
                  frames_dropped := s.frames_dropped + 1 }, true)
  else
    ({ s with frames_dropped := s.frames_dropped + 1 }, false)

/-- Method `get` (frame_queue.py lines 51-58): returns the head, or None
after a timeout on an empty queue. -/
def get (s : BoundedFrameQueue α) : BoundedFrameQueue α × Option α :=
  match s.queue with
  | [] => (s, none)
  | x :: rest => ({ s with queue := rest }, some x)

/-- Method `size` (frame_queue.py lines 60-62). -/
def size (s : BoundedFrameQueue α) : Nat := s.queue.length

/-- Method `is_empty` (frame_queue.py lines 64-66). -/
def is_empty (s : BoundedFrameQueue α) : Bool := s.queue.isEmpty

/-- Method `clear` (frame_queue.py lines 68-75): drains until empty. -/
def clear (s : BoundedFrameQueue α) : BoundedFrameQueue α :=
  { s with queue := [] }

end BoundedFrameQueue

/-- A single-threaded client call on the queue: `put`, `get` or `clear`. -/
inductive QOp (α : Type) where
  | put (a : α)
  | get
  | clear
deriving DecidableEq

/-- Apply one call, keeping the updated queue state. -/
def applyOp (s : BoundedFrameQueue α) : QOp α → BoundedFrameQueue α
  | QOp.put a => (s.put a).1
  | QOp.get => (s.get).1
  | QOp.clear => s.clear

/-- Apply a sequence of calls in order. -/
def applyOps (s : BoundedFrameQueue α) (ops : List (QOp α)) :
    BoundedFrameQueue α :=
  ops.foldl applyOp s

/-- Put a list of items one after another, keeping the queue state. -/
def putAll (s : BoundedFrameQueue α) (items : List α) : BoundedFrameQueue α :=
  items.foldl (fun t a => (t.put a).1) s

/- Size bound lemmas. -/

lemma put_length_le (s : BoundedFrameQueue α) (a : α)
    (h1 : 1 ≤ s.max_size) (hlen : s.queue.length ≤ s.max_size) :
    ((s.put a).1).queue.length ≤ s.max_size := by
  unfold BoundedFrameQueue.put
  split
  · rename_i h
    rcases h with h0 | hlt
    · omega
    · simp only [List.length_append, List.length_singleton]
      omega
  · rename_i h
    split
    · rename_i hq
      match hmatch : s.queue with
      | [] => simp [hmatch]
      | x :: rest =>
        simp only [hmatch, List.length_append, List.length_singleton]
        have : s.queue.length = rest.length + 1 := by simp [hmatch]
        omega
    · exact hlen

lemma put_max_size_eq (s : BoundedFrameQueue α) (a : α) :
    ((s.put a).1).max_size = s.max_size := by
  unfold BoundedFrameQueue.put
  split
  · rfl
  · split
    · match s.queue with
      | [] => rfl
      | _ :: _ => rfl
    · rfl

lemma applyOp_length_le (s : BoundedFrameQueue α) (op : QOp α)
    (h1 : 1 ≤ s.max_size) (hlen : s.queue.length ≤ s.max_size) :
    (applyOp s op).queue.length ≤ (applyOp s op).max_size ∧
      (applyOp s op).max_size = s.max_size := by
  cases op with
  | put a =>
      simp only [applyOp]
      refine ⟨?_, put_max_size_eq s a⟩
      rw [put_max_size_eq s a]
      exact put_length_le s a h1 hlen
  | get =>
      unfold applyOp BoundedFrameQueue.get
      match hq : s.queue with
      | [] => exact ⟨by simp [hq], rfl⟩
      | x :: rest =>
        refine ⟨?_, rfl⟩
        have : s.queue.length = rest.length + 1 := by simp [hq]
        simpa using by omega
  | clear =>
      unfold applyOp BoundedFrameQueue.clear
      exact ⟨by simp, rfl⟩

lemma applyOps_length_le (ops : List (QOp α)) (s : BoundedFrameQueue α)
    (h1 : 1 ≤ s.max_size) (hlen : s.queue.length ≤ s.max_size) :
    (applyOps s ops).queue.length ≤ s.max_size := by
  induction ops generalizing s with
  | nil => simpa [applyOps] using hlen
  | cons op ops ih =>
      have hstep := applyOp_length_le s op h1 hlen
      have := ih (applyOp s op)
        (by rw [hstep.2]; exact h1) hstep.1
      simpa [applyOps, List.foldl_cons, hstep.2] using this

/-- Claim C1 (amended): for every BoundedFrameQueue constructed with
capacity C ≥ 1 and any policy, and for every sequence of put calls
interleaved with get and clear calls, `size()` never returns a value
exceeding C. -/
theorem boundedQueue_size_le_capacity (C : Nat) (policy : String)
    (hC : 1 ≤ C) (ops : List (QOp Nat)) :
    (applyOps (BoundedFrameQueue.init Nat C policy) ops).size ≤ C := by
  exact applyOps_length_le ops _ hC (by simp [BoundedFrameQueue.init])

/-- Witness for `boundedQueue_size_le_capacity` at capacity 2 and a
concrete sequence of puts, gets and a clear. -/
theorem boundedQueue_size_le_capacity_witness :
    1 ≤ 2 ∧
      (applyOps (BoundedFrameQueue.init Nat 2 "oldest")
        [QOp.put 1, QOp.put 2, QOp.put 3, QOp.get, QOp.clear,
         QOp.put 4]).size ≤ 2 :=
  ⟨by decide,
   boundedQueue_size_le_capacity 2 "oldest" (by decide)
     [QOp.put 1, QOp.put 2, QOp.put 3, QOp.get, QOp.clear, QOp.put 4]⟩

/-- Counterexample to claim C1 as stated: a BoundedFrameQueue constructed
with capacity 0 wraps `queue.Queue(maxsize=0)`, which is unbounded, so a
single put makes `size()` return 1 > 0. -/
theorem boundedQueue_capacity_zero_exceeded :
    ¬ (applyOps (BoundedFrameQueue.init Nat 0 "oldest")
        [QOp.put 1]).size ≤ 0 := by
  decide

/- Filling a queue that has room for all items appends them in FIFO
order and counts each as added. -/

lemma put_not_full (s : BoundedFrameQueue α) (a : α)
    (h : s.max_size = 0 ∨ s.queue.length < s.max_size) :
    s.put a = ({ s with queue := s.queue ++ [a],
                        frames_added := s.frames_added + 1 }, true) := by
  unfold BoundedFrameQueue.put
  rw [if_pos h]

lemma put_full_oldest (s : BoundedFrameQueue α) (a x : α) (rest : List α)
    (hq : s.queue = x :: rest)
    (hfull : ¬ (s.max_size = 0 ∨ s.queue.length < s.max_size))
    (hpol : s.drop_policy = "oldest") :
    s.put a = ({ s with queue := rest ++ [a],
                        frames_dropped := s.frames_dropped + 1 }, true) := by
  obtain ⟨ms, pol, q, fa, fd⟩ := s
  simp only at hq
  subst hq
  subst hpol
  unfold BoundedFrameQueue.put
  rw [if_neg hfull, if_pos rfl]

lemma put_full_other (s : BoundedFrameQueue α) (a : α)
    (hfull : ¬ (s.max_size = 0 ∨ s.queue.length < s.max_size))
    (hpol : ¬ s.drop_policy = "oldest") :
    s.put a = ({ s with frames_dropped := s.frames_dropped + 1 }, false) := by
  unfold BoundedFrameQueue.put
  rw [if_neg hfull, if_neg hpol]

lemma putAll_fill (items : List α) (s : BoundedFrameQueue α)
    (h : s.queue.length + items.length ≤ s.max_size) :
    putAll s items =
      { s with queue := s.queue ++ items,
               frames_added := s.frames_added + items.length } := by
  induction items generalizing s with
  | nil => simp [putAll]
  | cons a items ih =>
      have hlt : s.queue.length < s.max_size := by
        simp only [List.length_cons] at h
        omega
      have hstep : putAll s (a :: items) =
          putAll { s with queue := s.queue ++ [a],
                          frames_added := s.frames_added + 1 } items := by
        simp [putAll, List.foldl_cons, put_not_full s a (Or.inr hlt)]
      rw [hstep, ih]
      · have hadd : s.frames_added + 1 + items.length =
            s.frames_added + (items.length + 1) := by omega
        simp only [List.append_assoc, List.singleton_append,
          List.length_cons, hadd]
      · simp only [List.length_append, List.length_singleton,
          List.length_cons, List.length_nil] at h ⊢
        omega

lemma fillScenario (C : Nat) (policy : String) :
    putAll (BoundedFrameQueue.init Nat C policy) (List.range' 1 C) =
      { max_size := C, drop_policy := policy, queue := List.range' 1 C,
        frames_added := C, frames_dropped := 0 } := by
  have h := putAll_fill (List.range' 1 C)
    (BoundedFrameQueue.init Nat C policy) (by simp [BoundedFrameQueue.init])
  simpa [BoundedFrameQueue.init] using h

/-- Claim C2 (amended): for a BoundedFrameQueue of capacity C ≥ 1 with
policy "oldest", after putting items 1..C and then putting item C+1 with
no concurrent operations, the queue holds exactly items 2..C+1 in FIFO
order, that put call returns true, and the drop counter has increased by
exactly 1 (from 0 to 1). -/
theorem dropOldest_eviction (C : Nat) (hC : 1 ≤ C) :
    ((putAll (BoundedFrameQueue.init Nat C "oldest")
        (List.range' 1 C)).put (C + 1)).1.queue = List.range' 2 C ∧
    ((putAll (BoundedFrameQueue.init Nat C "oldest")
        (List.range' 1 C)).put (C + 1)).2 = true ∧
    ((putAll (BoundedFrameQueue.init Nat C "oldest")
        (List.range' 1 C)).put (C + 1)).1.frames_dropped =
      (putAll (BoundedFrameQueue.init Nat C "oldest")
        (List.range' 1 C)).frames_dropped + 1 ∧
    (putAll (BoundedFrameQueue.init Nat C "oldest")
        (List.range' 1 C)).frames_dropped = 0 := by
  obtain ⟨D, rfl⟩ : ∃ D, C = D + 1 := ⟨C - 1, by omega⟩
  rw [fillScenario]
  have hq : List.range' 1 (D + 1) = 1 :: List.range' 2 D := by
    simpa using List.range'_succ 1 D 1
  have hput := put_full_oldest
    (⟨D + 1, "oldest", List.range' 1 (D + 1), D + 1, 0⟩ :
      BoundedFrameQueue Nat)
    (D + 1 + 1) 1 (List.range' 2 D) (by simpa using hq)
    (by simp) rfl
  rw [hput]
  refine ⟨?_, rfl, rfl, rfl⟩
  have hconcat : List.range' 2 (D + 1) = List.range' 2 D ++ [2 + D] := by
    simpa using List.range'_1_concat 2 D
  have h2 : (2 : Nat) + D = D + 1 + 1 := by omega
  rw [hconcat, h2]

/-- Witness for `dropOldest_eviction` at capacity 3: putting 1,2,3 and
then 4 leaves the queue holding 2,3,4, returns true, and moves the drop
counter from 0 to 1. -/
theorem dropOldest_eviction_witness :
    1 ≤ 3 ∧
    ((putAll (BoundedFrameQueue.init Nat 3 "oldest")
        (List.range' 1 3)).put (3 + 1)).1.queue = List.range' 2 3 ∧
    ((putAll (BoundedFrameQueue.init Nat 3 "oldest")
        (List.range' 1 3)).put (3 + 1)).2 = true ∧
    ((putAll (BoundedFrameQueue.init Nat 3 "oldest")
        (List.range' 1 3)).put (3 + 1)).1.frames_dropped =
      (putAll (BoundedFrameQueue.init Nat 3 "oldest")
        (List.range' 1 3)).frames_dropped + 1 ∧
    (putAll (BoundedFrameQueue.init Nat 3 "oldest")
        (List.range' 1 3)).frames_dropped = 0 :=
  ⟨by decide, dropOldest_eviction 3 (by decide)⟩

/-- Counterexample to claim C2 as stated: at capacity 0 the underlying
`queue.Queue(maxsize=0)` is unbounded, so after putting items 1..0
(none) the extra put of item 1 is simply retained: the queue ends as
[1], not the claimed 2..1 = [], and the drop counter stays 0, not +1. -/
theorem dropOldest_capacity_zero_counterexample :
    ((putAll (BoundedFrameQueue.init Nat 0 "oldest")
        (List.range' 1 0)).put (0 + 1)).1.queue = [1] ∧
    List.range' 2 0 = ([] : List Nat) ∧
    ((putAll (BoundedFrameQueue.init Nat 0 "oldest")
        (List.range' 1 0)).put (0 + 1)).1.frames_dropped = 0 := by
  decide

/-- Claim C3 (amended): for a BoundedFrameQueue of capacity C ≥ 1 with
any policy other than "oldest", after putting items 1..C and then
putting item C+1 with no concurrent operations, the queue contents are
unchanged (still items 1..C), that put call returns false, and the drop
counter has increased by exactly 1 (from 0 to 1). -/
theorem dropNewest_rejects (C : Nat) (policy : String) (hC : 1 ≤ C)
    (hp : policy ≠ "oldest") :
    ((putAll (BoundedFrameQueue.init Nat C policy)
        (List.range' 1 C)).put (C + 1)).1.queue = List.range' 1 C ∧
    ((putAll (BoundedFrameQueue.init Nat C policy)
        (List.range' 1 C)).put (C + 1)).2 = false ∧
    ((putAll (BoundedFrameQueue.init Nat C policy)
        (List.range' 1 C)).put (C + 1)).1.frames_dropped =
      (putAll (BoundedFrameQueue.init Nat C policy)
        (List.range' 1 C)).frames_dropped + 1 ∧
    (putAll (BoundedFrameQueue.init Nat C policy)
        (List.range' 1 C)).frames_dropped = 0 := by
  rw [fillScenario]
  have hput := put_full_other
    (⟨C, policy, List.range' 1 C, C, 0⟩ : BoundedFrameQueue Nat)
    (C + 1) (by simp; omega) (by simpa using hp)
  rw [hput]
  exact ⟨rfl, rfl, rfl, rfl⟩

/-- Witness for `dropNewest_rejects` at capacity 3 with policy "newest":
putting 1,2,3 and then 4 leaves the queue holding 1,2,3, returns false,
and moves the drop counter from 0 to 1. -/
theorem dropNewest_rejects_witness :
    (1 ≤ 3 ∧ "newest" ≠ "oldest") ∧
    ((putAll (BoundedFrameQueue.init Nat 3 "newest")
        (List.range' 1 3)).put (3 + 1)).1.queue = List.range' 1 3 ∧
    ((putAll (BoundedFrameQueue.init Nat 3 "newest")
        (List.range' 1 3)).put (3 + 1)).2 = false ∧
    ((putAll (BoundedFrameQueue.init Nat 3 "newest")
        (List.range' 1 3)).put (3 + 1)).1.frames_dropped =
      (putAll (BoundedFrameQueue.init Nat 3 "newest")
        (List.range' 1 3)).frames_dropped + 1 ∧
    (putAll (BoundedFrameQueue.init Nat 3 "newest")
        (List.range' 1 3)).frames_dropped = 0 :=
  ⟨⟨by decide, by decide⟩, dropNewest_rejects 3 "newest" (by decide) (by decide)⟩

/-- Counterexample to claim C3 as stated: at capacity 0 the underlying
queue is unbounded, so the extra put is retained and returns true, where
the claim requires false. -/
theorem dropNewest_capacity_zero_counterexample :
    ((putAll (BoundedFrameQueue.init Nat 0 "newest")
        (List.range' 1 0)).put (0 + 1)).2 = true := by
  decide

/-- Claim C10: on the DropOldest eviction path (queue full with a
positive maxsize, policy "oldest"), `put` returns true, leaves the
`frames_added` counter unchanged and increments `frames_dropped` by
exactly 1; moreover `frames_added` is incremented exactly by the put
calls that take the non-full path. -/
theorem put_dropOldest_counters (s : BoundedFrameQueue Nat) (item : Nat) :
    (0 < s.max_size → s.max_size ≤ s.queue.length →
      s.drop_policy = "oldest" →
      (s.put item).2 = true ∧
      ((s.put item).1).frames_added = s.frames_added ∧
      ((s.put item).1).frames_dropped = s.frames_dropped + 1) ∧
    (((s.put item).1).frames_added = s.frames_added + 1 ↔
      (s.max_size = 0 ∨ s.queue.length < s.max_size)) := by
  by_cases hfull : s.max_size = 0 ∨ s.queue.length < s.max_size
  · constructor
    · intro h1 h2 _
      rcases hfull with h0 | hlt
      · omega
      · omega
    · rw [put_not_full s item hfull]
      simpa using hfull
  · constructor
    · intro h1 h2 hpol
      match hq : s.queue with
      | [] =>
          rw [hq] at h2
          simp only [List.length_nil] at h2
          omega
      | x :: rest =>
          rw [put_full_oldest s item x rest hq hfull hpol]
          exact ⟨rfl, rfl, rfl⟩
    · by_cases hpol : s.drop_policy = "oldest"
      · match hq : s.queue with
        | [] =>
            exfalso
            rw [hq] at hfull
            simp only [List.length_nil] at hfull
            omega
        | x :: rest =>
            rw [put_full_oldest s item x rest hq hfull hpol]
            dsimp only
            exact iff_of_false (by omega) (hq ▸ hfull)
      · rw [put_full_other s item hfull hpol]
        dsimp only
        exact iff_of_false (by omega) hfull

/-- Witness for `put_dropOldest_counters`: a full capacity-2 oldest
queue holding [5, 6] with 10 frames added and 3 dropped; putting 9
returns true, keeps `frames_added` at 10 and moves `frames_dropped` to
4. -/
theorem put_dropOldest_counters_witness :
    (0 < 2 ∧ 2 ≤ 2) ∧
    ((⟨2, "oldest", [5, 6], 10, 3⟩ : BoundedFrameQueue Nat).put 9).2 =
      true ∧
    (((⟨2, "oldest", [5, 6], 10, 3⟩ : BoundedFrameQueue Nat).put
        9).1).frames_added = 10 ∧
    (((⟨2, "oldest", [5, 6], 10, 3⟩ : BoundedFrameQueue Nat).put
        9).1).frames_dropped = 3 + 1 :=
  ⟨⟨by decide, by decide⟩,
   (put_dropOldest_counters ⟨2, "oldest", [5, 6], 10, 3⟩ 9).1
     (by decide) (by decide) rfl⟩

/-
Embedding of src/client/capture_worker.py.

The worker state keeps the fields the claims are about: `frame_id` and
`reconnect_attempts` from `__init__` (lines 48-50), together with the
observable trace of the run: the frame ids handed to `frame_queue.put`
(line 168, the `'frame_id': self.frame_id` field of the pushed record)
and the backoff waits performed by `_reconnect` (line 112).
`reconnect_interval` is the constructor parameter (default 2).
-/

structure CaptureWorker where
  reconnect_interval : Nat
  frame_id : Nat
  reconnect_attempts : Nat
  pushed : List Nat
  waits : List Nat
deriving DecidableEq

namespace CaptureWorker

/-- Constructor `__init__` (capture_worker.py lines 20-52): `frame_id`
and `reconnect_attempts` start at 0. -/
def init (reconnect_interval : Nat) : CaptureWorker :=
  { reconnect_interval := reconnect_interval, frame_id := 0,
    reconnect_attempts := 0, pushed := [], waits := [] }

/-- State effect of `_connect` (lines 54-92): a successful connect
resets the attempt counter to 0 (line 87); a failed or raising connect
leaves the state unchanged. -/
def connectEffect (success : Bool) (s : CaptureWorker) : CaptureWorker :=
  if success then { s with reconnect_attempts := 0 } else s

/-- Backoff formula of `_reconnect` (line 105):
`min(reconnect_interval * 2 ** (attempts - 1), 30)`, evaluated after the
attempt counter has been incremented. -/
def backoffWait (reconnect_interval attempts : Nat) : Nat :=
  min (reconnect_interval * 2 ^ (attempts - 1)) 30

/-- State effect of `_reconnect` (lines 94-113): increment the attempt
counter, sleep the backoff wait (recorded in the trace), then
`_connect`. -/
def reconnectEffect (success : Bool) (s : CaptureWorker) : CaptureWorker :=
  connectEffect success
    { s with reconnect_attempts := s.reconnect_attempts + 1,
             waits := s.waits ++
               [backoffWait s.reconnect_interval
                 (s.reconnect_attempts + 1)] }

/-- Outcome of one iteration of the while-loop body (lines 129-189):
the rate-limiting `continue` (lines 134-136), a successful read that
pushes a frame and increments `frame_id` (lines 139-182), a failed read
followed by a successful or failed `_reconnect` (lines 141-146, both
`continue`), or an exception caught by the `except` clause (lines
186-189, `continue`). -/
inductive CaptureEvent where
  | rateLimited
  | readOk
  | readFailReconnectOk
  | readFailReconnectFail
  | raised
deriving DecidableEq

/-- State effect of one loop iteration. -/
def loopStep (s : CaptureWorker) : CaptureEvent → CaptureWorker
  | CaptureEvent.rateLimited => s
  | CaptureEvent.readOk =>
      { s with pushed := s.pushed ++ [s.frame_id],
               frame_id := s.frame_id + 1 }
  | CaptureEvent.readFailReconnectOk => reconnectEffect true s
  | CaptureEvent.readFailReconnectFail => reconnectEffect false s
  | CaptureEvent.raised => s

/-- Method `run` (lines 115-195).  When the initial `_connect` fails,
`run` returns immediately (lines 122-124): the returned flag is false
and no loop iteration happens.  Otherwise the loop body processes one
event per iteration until the stop signal ends the run (flag true). -/
def run (reconnect_interval : Nat) (initialConnectOk : Bool)
    (events : List CaptureEvent) : CaptureWorker × Bool :=
  if initialConnectOk then
    (events.foldl loopStep (connectEffect true (init reconnect_interval)),
     true)
  else
    (init reconnect_interval, false)

end CaptureWorker

open CaptureWorker (CaptureEvent)

lemma loopStep_fail (s : CaptureWorker) :
    CaptureWorker.loopStep s CaptureEvent.readFailReconnectFail =
      { s with reconnect_attempts := s.reconnect_attempts + 1,
               waits := s.waits ++
                 [CaptureWorker.backoffWait s.reconnect_interval
                   (s.reconnect_attempts + 1)] } := by
  rfl

/-- `k` consecutive failed reconnections add `k` to the attempt counter
and perform the backoff waits for attempts `a+1, ..., a+k`. -/
lemma consecutiveFailures (k : Nat) (s : CaptureWorker) :
    List.foldl CaptureWorker.loopStep s
        (List.replicate k CaptureEvent.readFailReconnectFail) =
      { s with reconnect_attempts := s.reconnect_attempts + k,
               waits := s.waits ++
                 (List.range' (s.reconnect_attempts + 1) k).map
                   (CaptureWorker.backoffWait s.reconnect_interval) } := by
  induction k generalizing s with
  | zero => simp
  | succ k ih =>
      rw [List.replicate_succ, List.foldl_cons, loopStep_fail, ih]
      have hrange : List.range' (s.reconnect_attempts + 1) (k + 1) =
          (s.reconnect_attempts + 1) ::
            List.range' (s.reconnect_attempts + 1 + 1) k := by
        simpa using List.range'_succ (s.reconnect_attempts + 1) k 1
      have hadd : s.reconnect_attempts + 1 + k =
          s.reconnect_attempts + (k + 1) := by omega
      simp only [hrange, List.map_cons, List.append_assoc,
        List.singleton_append, hadd]

/-- Claim C4 (amended): once the initial connection has succeeded, no
sequence of read failures or failed reconnection attempts terminates the
capture loop — the run survives every event sequence and the attempt
counter grows without ceiling (k consecutive failures give counter k);
but when the initial `_connect` fails, `run` returns immediately with no
reconnection attempt. -/
theorem captureWorker_no_retry_ceiling (base : Nat)
    (events : List CaptureWorker.CaptureEvent) (k : Nat) :
    (CaptureWorker.run base true events).2 = true ∧
    ((CaptureWorker.run base true
        (List.replicate k
          CaptureEvent.readFailReconnectFail)).1).reconnect_attempts = k ∧
    CaptureWorker.run base false events = (CaptureWorker.init base, false) := by
  refine ⟨by simp [CaptureWorker.run], ?_, by simp [CaptureWorker.run]⟩
  have h := consecutiveFailures k
    (CaptureWorker.connectEffect true (CaptureWorker.init base))
  simp only [CaptureWorker.connectEffect, CaptureWorker.init,
    if_true] at h
  simp [CaptureWorker.run, CaptureWorker.connectEffect,
    CaptureWorker.init, h]

/-- Counterexample to claim C4 as stated: before the first successful
connection, a failed connection attempt is fatal.  With the default
2-second interval and a failing initial `_connect`, `run` returns
immediately (lines 122-124 of capture_worker.py): the flag is false (no
stop signal was involved) and zero reconnection attempts were made, so
the failure is not followed by any retry. -/
theorem captureWorker_initial_failure_fatal :
    CaptureWorker.run 2 false [CaptureEvent.readFailReconnectOk] =
      (CaptureWorker.init 2, false) ∧
    (CaptureWorker.run 2 false
        [CaptureEvent.readFailReconnectOk]).1.reconnect_attempts = 0 :=
  ⟨rfl, rfl⟩

/-- Claim C5: with base interval 2 seconds (the default
`reconnect_interval`) and the hard-coded cap of 30 seconds, the k-th
consecutive reconnection attempt waits `min(2 * 2^(k-1), 30)` seconds;
in particular attempts 1,2,3,4,5 wait 2,4,8,16,30 seconds (30, not 32,
at attempt 5). -/
theorem reconnect_backoff_waits (k : Nat) :
    ((CaptureWorker.run 2 true
        (List.replicate k CaptureEvent.readFailReconnectFail)).1).waits =
      (List.range' 1 k).map (fun i => min (2 * 2 ^ (i - 1)) 30) ∧
    ((CaptureWorker.run 2 true
        (List.replicate 5 CaptureEvent.readFailReconnectFail)).1).waits =
      [2, 4, 8, 16, 30] := by
  constructor
  · have h := consecutiveFailures k
      (CaptureWorker.connectEffect true (CaptureWorker.init 2))
    simp only [CaptureWorker.connectEffect, CaptureWorker.init,
      if_true] at h
    simp [CaptureWorker.run, CaptureWorker.connectEffect,
      CaptureWorker.init, h, CaptureWorker.backoffWait]
  · decide

/-- The loop trace: the frame ids handed to the outbound queue are the
consecutive integers starting at the current `frame_id`, one per
successful read; `frame_id` advances by the number of successful
reads. -/
lemma run_pushed_trace (events : List CaptureWorker.CaptureEvent)
    (s : CaptureWorker) :
    (List.foldl CaptureWorker.loopStep s events).pushed =
      s.pushed ++ List.range' s.frame_id
        (events.count CaptureEvent.readOk) ∧
    (List.foldl CaptureWorker.loopStep s events).frame_id =
      s.frame_id + events.count CaptureEvent.readOk := by
  induction events generalizing s with
  | nil => simp
  | cons e es ih =>
      cases e with
      | rateLimited =>
          simpa [List.count_cons, CaptureWorker.loopStep] using ih s
      | raised =>
          simpa [List.count_cons, CaptureWorker.loopStep] using ih s
      | readFailReconnectOk =>
          have h := ih (CaptureWorker.reconnectEffect true s)
          simpa [List.count_cons, CaptureWorker.loopStep,
            CaptureWorker.reconnectEffect,
            CaptureWorker.connectEffect] using h
      | readFailReconnectFail =>
          have h := ih (CaptureWorker.reconnectEffect false s)
          simpa [List.count_cons, CaptureWorker.loopStep,
            CaptureWorker.reconnectEffect,
            CaptureWorker.connectEffect] using h
      | readOk =>
          have h := ih { s with pushed := s.pushed ++ [s.frame_id],
                                frame_id := s.frame_id + 1 }
          have hrange : List.range' s.frame_id
              (es.count CaptureEvent.readOk + 1) =
              s.frame_id :: List.range' (s.frame_id + 1)
                (es.count CaptureEvent.readOk) := by
            simpa using List.range'_succ s.frame_id
              (es.count CaptureEvent.readOk) 1
          constructor
          · rw [List.foldl_cons]
            simp only [CaptureWorker.loopStep]
            rw [h.1]
            simp [List.count_cons, hrange, List.append_assoc]
          · rw [List.foldl_cons]
            simp only [CaptureWorker.loopStep]
            rw [h.2]
            simp [List.count_cons]
            omega

/-- Claim C6: within one CaptureWorker instance the frame sequence
number starts at 0; the frame ids handed to the outbound queue are
exactly 0, 1, 2, ... (strictly monotonically increasing); a
reconnection never resets the counter: `_connect` and `_reconnect`
leave `frame_id` unchanged, and the only loop step that changes it is a
successful capture, which increments it by exactly 1. -/
theorem capture_sequence_monotone (base : Nat)
    (events : List CaptureWorker.CaptureEvent) :
    (CaptureWorker.init base).frame_id = 0 ∧
    (∀ (b : Bool) (s : CaptureWorker),
      (CaptureWorker.connectEffect b s).frame_id = s.frame_id) ∧
    (∀ (b : Bool) (s : CaptureWorker),
      (CaptureWorker.reconnectEffect b s).frame_id = s.frame_id) ∧
    (∀ (s : CaptureWorker) (e : CaptureWorker.CaptureEvent),
      (CaptureWorker.loopStep s e).frame_id =
        (if e = CaptureEvent.readOk then s.frame_id + 1
         else s.frame_id)) ∧
    ((CaptureWorker.run base true events).1).pushed =
      List.range' 0 (events.count CaptureEvent.readOk) ∧
    List.Pairwise (· < ·) ((CaptureWorker.run base true events).1).pushed := by
  have hpushed : ((CaptureWorker.run base true events).1).pushed =
      List.range' 0 (events.count CaptureEvent.readOk) := by
    have h := run_pushed_trace events
      (CaptureWorker.connectEffect true (CaptureWorker.init base))
    simpa [CaptureWorker.run, CaptureWorker.connectEffect,
      CaptureWorker.init] using h.1
  refine ⟨rfl, ?_, ?_, ?_, hpushed, ?_⟩
  · intro b s
    cases b <;> simp [CaptureWorker.connectEffect]
  · intro b s
    cases b <;> simp [CaptureWorker.reconnectEffect,
      CaptureWorker.connectEffect]
  · intro s e
    cases e <;> simp [CaptureWorker.loopStep,
      CaptureWorker.reconnectEffect, CaptureWorker.connectEffect]
  · rw [hpushed]
    exact List.pairwise_lt_range' 0 (events.count CaptureEvent.readOk)

/-
Embedding of src/server/inference_worker.py.

A queue item's `'frame'` entry can be None, bytes, a numpy array, or
anything else; the loop body branches on which.  Everything the body
does that can raise is summarised per iteration by an environment
record; the outer `except Exception` clause (lines 137-139) turns any
raise into a `continue`.
-/

inductive PyVal where
  | pyNone
  | pyBytes (b : List Nat)
  | ndarray (a : List Nat)
  | other (tag : Nat)
deriving DecidableEq

def isBytes : PyVal → Bool
  | PyVal.pyBytes _ => true
  | _ => false

def isNdarray : PyVal → Bool
  | PyVal.ndarray _ => true
  | _ => false

/-- The fields of a dequeued frame_data dict that drive the control flow
(inference_worker.py lines 71-75). -/
structure FrameData where
  frame : PyVal
  frame_id : Nat
  encoded : Bool
deriving DecidableEq

/-- The environment one loop iteration runs in: what `get` returned and
whether each fallible stage succeeds.  `decodeResult = none` means
`decode_frame` raised; the flags say whether the model call, the result
formatting, the output-queue put and the metrics updates raise. -/
structure IterEnv where
  got : Option FrameData
  decodeResult : Option PyVal
  inferOk : Bool
  formatOk : Bool
  putOk : Bool
  metricsOk : Bool
deriving DecidableEq

/-- Observable worker state: the processed-frame counter (line 56,
incremented at line 133) and the frame ids pushed to the output queue
(line 127). -/
structure InferenceWorker where
  frame_count : Nat
  outputs : List Nat
deriving DecidableEq

/-- One execution of the loop body (inference_worker.py lines 61-139).
Every branch returns a state — the body never exits the loop: a None
item (line 67), a None frame (line 79), a decode failure caught by the
inner except (line 88), a non-ndarray frame (line 93) and any raising
stage caught by the outer except (line 137) all `continue`.  When the
put succeeded but a metrics call raised, the output was already
enqueued but `frame_count` is not incremented. -/
def runBody (s : InferenceWorker) (env : IterEnv) : InferenceWorker :=
  match env.got with
  | none => s
  | some fd =>
      if fd.frame = PyVal.pyNone then s
      else
        match (if fd.encoded && isBytes fd.frame then env.decodeResult
               else some fd.frame) with
        | none => s
        | some fr =>
            if !isNdarray fr then s
            else if !env.inferOk then s
            else if !env.formatOk then s
            else if !env.putOk then s
            else if !env.metricsOk then
              { s with outputs := s.outputs ++ [fd.frame_id] }
            else
              { s with outputs := s.outputs ++ [fd.frame_id],
                       frame_count := s.frame_count + 1 }

/-- The worker loop `run` (inference_worker.py lines 58-139), with an
explicit iteration bound: `some s` means the loop observed the stop
signal at the head of an iteration and exited with state `s`; `none`
means the loop is still running after `fuel` iterations. -/
def runWorker (stop : Nat → Bool) (env : Nat → IterEnv) :
    Nat → Nat → InferenceWorker → Option InferenceWorker
  | 0, _, _ => none
  | fuel + 1, i, s =>
      if stop i then some s
      else runWorker stop env fuel (i + 1) (runBody s (env i))

/-- Claim C7: for every item dequeued by an inference worker, any
failure while handling that item (missing or None item, decode failure,
inference, formatting, output enqueue or metrics raising) is absorbed
by the loop body, which always continues to the next iteration; when
the stop signal is never set the loop never exits, whatever the items
look like, and when the loop does exit, the stop signal was set. -/
theorem worker_survives_bad_frames (stop : Nat → Bool)
    (env : Nat → IterEnv) :
    (∀ (fuel i : Nat) (s : InferenceWorker), stop i = false →
      runWorker stop env (fuel + 1) i s =
        runWorker stop env fuel (i + 1) (runBody s (env i))) ∧
    (∀ (fuel i : Nat) (s : InferenceWorker),
      (∀ j, stop j = false) → runWorker stop env fuel i s = none) ∧
    (∀ (fuel i : Nat) (s s2 : InferenceWorker),
      runWorker stop env fuel i s = some s2 → ∃ j, stop j = true) := by
  refine ⟨?_, ?_, ?_⟩
  · intro fuel i s h
    simp [runWorker, h]
  · intro fuel
    induction fuel with
    | zero => intro i s _; rfl
    | succ fuel ih =>
        intro i s hstop
        simp only [runWorker, hstop i, Bool.false_eq_true, if_false]
        exact ih (i + 1) (runBody s (env i)) hstop
  · intro fuel
    induction fuel with
    | zero => intro i s s2 h; exact absurd h (by simp [runWorker])
    | succ fuel ih =>
        intro i s s2 h
        by_cases hstop : stop i = true
        · exact ⟨i, hstop⟩
        · simp only [runWorker, hstop, if_false] at h
          exact ih (i + 1) (runBody s (env i)) s2 h

/-- Witness for `worker_survives_bad_frames`: a stop signal that is
never set and a stream of poisoned items (encoded bytes frames whose
decode raises, with every later stage also raising); after 5 iterations
the worker is still running. -/
theorem worker_survives_bad_frames_witness :
    runWorker (fun _ => false)
      (fun _ => ⟨some ⟨PyVal.pyBytes [7], 0, true⟩, none,
        false, false, false, false⟩)
      5 0 ⟨0, []⟩ = none :=
  (worker_survives_bad_frames (fun _ => false)
    (fun _ => ⟨some ⟨PyVal.pyBytes [7], 0, true⟩, none,
      false, false, false, false⟩)).2.1 5 0 ⟨0, []⟩ (fun _ => rfl)

/-
Embedding of src/utils/metrics.py.

Samples and timestamps are modelled as rationals.  `deque(maxlen=w)`
discards from the left when an append would exceed `w`.  The tracker's
`threading.Lock` is NOT reentrant: an acquire while the same thread
already holds it blocks forever.  Each operation therefore takes a
`held` flag — whether this thread already holds the tracker's lock when
the call starts — and returns `none` when its `with self.lock` acquire
blocks forever, `some result` when it completes.
-/

/-- Append to a `deque(maxlen=maxlen)`: the new element goes to the
right and elements are discarded from the left down to `maxlen`. -/
def dequeAppend (maxlen : Nat) (l : List ℚ) (x : ℚ) : List ℚ :=
  (l ++ [x]).drop ((l ++ [x]).length - maxlen)

/-- Python's `round(x, d)` up to its tie-breaking rule (banker's
rounding at exact halves, irrelevant to the claims checked here). -/
def roundTo (d : Nat) (x : ℚ) : ℚ :=
  (round (x * 10 ^ d) : ℚ) / 10 ^ d

structure MetricsTracker where
  window_size : Nat
  latencies : List ℚ
  frame_timestamps : List ℚ
  last_fps_update : ℚ
  current_fps : ℚ
  total_frames : Nat
  dropped_frames : Nat
  queue_depths : List ℚ
  start_time : ℚ
deriving DecidableEq

namespace MetricsTracker

/-- `record_latency` (metrics.py lines 44-47). -/
def record_latency (held : Bool) (m : MetricsTracker) (latency_ms : ℚ) :
    Option MetricsTracker :=
  if held then none
  else some { m with
    latencies := dequeAppend m.window_size m.latencies latency_ms }

/-- `_update_fps` (metrics.py lines 71-82), called with the lock already
held: fewer than 2 timestamps give fps 0; otherwise fps is the window
length divided by (newest - oldest) when that span is positive, else
0. -/
def update_fps (m : MetricsTracker) : MetricsTracker :=
  if m.frame_timestamps.length < 2 then { m with current_fps := 0 }
  else if 0 < m.frame_timestamps.getLastD 0 - m.frame_timestamps.headD 0 then
    { m with current_fps := (m.frame_timestamps.length : ℚ) /
        (m.frame_timestamps.getLastD 0 - m.frame_timestamps.headD 0) }
  else
    { m with current_fps := 0 }

/-- `record_frame` (metrics.py lines 49-59): append the timestamp,
increment `total_frames`, and recompute fps at most every 0.5 s. -/
def record_frame (held : Bool) (now : ℚ) (m : MetricsTracker) :
    Option MetricsTracker :=
  if held then none
  else some (
    let m1 := { m with
      frame_timestamps := dequeAppend m.window_size m.frame_timestamps now,
      total_frames := m.total_frames + 1 }
    if (1 : ℚ) / 2 ≤ now - m1.last_fps_update then
      { update_fps m1 with last_fps_update := now }
    else m1)

/-- `record_dropped_frame` (metrics.py lines 61-64). -/
def record_dropped_frame (held : Bool) (m : MetricsTracker) :
    Option MetricsTracker :=
  if held then none
  else some { m with dropped_frames := m.dropped_frames + 1 }

/-- `record_queue_depth` (metrics.py lines 66-69). -/
def record_queue_depth (held : Bool) (m : MetricsTracker) (depth : ℚ) :
    Option MetricsTracker :=
  if held then none
  else some { m with
    queue_depths := dequeAppend m.window_size m.queue_depths depth }

/-- `get_avg_latency` (metrics.py lines 84-89). -/
def get_avg_latency (held : Bool) (m : MetricsTracker) : Option ℚ :=
  if held then none
  else some (match m.latencies with
    | [] => 0
    | l => l.sum / l.length)

/-- `get_min_latency` (metrics.py lines 91-96). -/
def get_min_latency (held : Bool) (m : MetricsTracker) : Option ℚ :=
  if held then none
  else some (match m.latencies with
    | [] => 0
    | x :: xs => xs.foldl min x)

/-- `get_max_latency` (metrics.py lines 98-103). -/
def get_max_latency (held : Bool) (m : MetricsTracker) : Option ℚ :=
  if held then none
  else some (match m.latencies with
    | [] => 0
    | x :: xs => xs.foldl max x)

/-- `get_fps` (metrics.py lines 105-108). -/
def get_fps (held : Bool) (m : MetricsTracker) : Option ℚ :=
  if held then none else some m.current_fps

/-- `get_avg_queue_depth` (metrics.py lines 110-115). -/
def get_avg_queue_depth (held : Bool) (m : MetricsTracker) : Option ℚ :=
  if held then none
  else some (match m.queue_depths with
    | [] => 0
    | l => l.sum / l.length)

/-- `get_drop_rate` (metrics.py lines 117-123). -/
def get_drop_rate (held : Bool) (m : MetricsTracker) : Option ℚ :=
  if held then none
  else some (
    if m.total_frames + m.dropped_frames = 0 then 0
    else ((m.dropped_frames : ℚ) /
      ((m.total_frames : ℚ) + (m.dropped_frames : ℚ))) * 100)

/-- `get_uptime` (metrics.py lines 125-127): takes no lock. -/
def get_uptime (now : ℚ) (m : MetricsTracker) : ℚ :=
  now - m.start_time

structure MetricsSummary where
  uptime_seconds : ℚ
  total_frames : Nat
  dropped_frames : Nat
  drop_rate_percent : ℚ
  current_fps : ℚ
  avg_latency_ms : ℚ
  min_latency_ms : ℚ
  max_latency_ms : ℚ
  avg_queue_depth : ℚ
deriving DecidableEq

/-- `get_summary` (metrics.py lines 129-147): acquires the lock, then
builds the dict in source order; `get_uptime` and the direct attribute
reads take no lock, but `get_drop_rate`, `get_avg_latency`,
`get_min_latency`, `get_max_latency` and `get_avg_queue_depth` are
called while this thread already holds the non-reentrant lock, so they
are invoked with `held = true`. -/
def get_summary (held : Bool) (now : ℚ) (m : MetricsTracker) :
    Option MetricsSummary :=
  if held then none
  else do
    let dr ← get_drop_rate true m
    let al ← get_avg_latency true m
    let mn ← get_min_latency true m
    let mx ← get_max_latency true m
    let qd ← get_avg_queue_depth true m
    pure { uptime_seconds := roundTo 1 (get_uptime now m),
           total_frames := m.total_frames,
           dropped_frames := m.dropped_frames,
           drop_rate_percent := roundTo 2 dr,
           current_fps := roundTo 1 m.current_fps,
           avg_latency_ms := roundTo 1 al,
           min_latency_ms := roundTo 1 mn,
           max_latency_ms := roundTo 1 mx,
           avg_queue_depth := roundTo 1 qd }

end MetricsTracker

/-- Claim C8 is false of the code (the claim states the intended
behaviour): with no concurrent holder of the lock, each single-lock
operation completes, but `get_summary` acquires the non-reentrant lock
and then calls `get_drop_rate` (and four other locked getters), whose
acquire blocks forever — `get_summary` self-deadlocks on every tracker
state. -/
theorem metrics_get_summary_deadlocks (m : MetricsTracker)
    (x d now : ℚ) :
    (MetricsTracker.record_latency false m x).isSome = true ∧
    (MetricsTracker.record_frame false now m).isSome = true ∧
    (MetricsTracker.record_dropped_frame false m).isSome = true ∧
    (MetricsTracker.record_queue_depth false m d).isSome = true ∧
    (MetricsTracker.get_fps false m).isSome = true ∧
    (MetricsTracker.get_avg_latency false m).isSome = true ∧
    (MetricsTracker.get_min_latency false m).isSome = true ∧
    (MetricsTracker.get_max_latency false m).isSome = true ∧
    (MetricsTracker.get_avg_queue_depth false m).isSome = true ∧
    (MetricsTracker.get_drop_rate false m).isSome = true ∧
    MetricsTracker.get_summary false now m = none :=
  ⟨rfl, rfl, rfl, rfl, rfl, rfl, rfl, rfl, rfl, rfl, rfl⟩

/-- Claim C9: when the rate is recomputed over a window of at least 2
timestamps, the new fps equals (window length) / (newest - oldest) when
that span is positive, and 0 when it is not. -/
theorem fps_formula (m : MetricsTracker)
    (h2 : 2 ≤ m.frame_timestamps.length) :
    (0 < m.frame_timestamps.getLastD 0 - m.frame_timestamps.headD 0 →
      (MetricsTracker.update_fps m).current_fps =
        (m.frame_timestamps.length : ℚ) /
          (m.frame_timestamps.getLastD 0 - m.frame_timestamps.headD 0)) ∧
    (¬ 0 < m.frame_timestamps.getLastD 0 - m.frame_timestamps.headD 0 →
      (MetricsTracker.update_fps m).current_fps = 0) := by
  unfold MetricsTracker.update_fps
  rw [if_neg (by omega)]
  constructor
  · intro h
    rw [if_pos h]
  · intro h
    rw [if_neg h]

/-- A window of 10 timestamps spaced exactly 0.1 s apart. -/
def tenWindow : MetricsTracker :=
  { window_size := 100,
    latencies := [],
    frame_timestamps := [0, 1/10, 2/10, 3/10, 4/10, 5/10, 6/10, 7/10,
      8/10, 9/10],
    last_fps_update := 0,
    current_fps := 0,
    total_frames := 0,
    dropped_frames := 0,
    queue_depths := [],
    start_time := 0 }

/-- Witness for `fps_formula`: 10 timestamps spaced exactly 0.1 s apart
(span 0.9) yield rate 10 / 0.9. -/
theorem fps_formula_witness :
    2 ≤ tenWindow.frame_timestamps.length ∧
    (MetricsTracker.update_fps tenWindow).current_fps = 10 / (9 / 10) := by
  constructor
  · decide
  · have h := (fps_formula tenWindow (by decide)).1 (by norm_num [tenWindow])
    rw [h]
    norm_num [tenWindow]
